import Mathlib

set_option maxRecDepth 100000

/-!
# Verification of the xvm-cni IPAM allocator and CNI command handlers

This development shallowly embeds the Go sources of the xvm-cni repository:

* `pkg/ipam` (the `IPAM` allocator: `New`, `Allocate`, `Release`,
  `findAvailableIP`, `inc`, `loadAllocations`, `saveAllocations`), and
* `main.go` (the CNI `cmdAdd` / `cmdDel` handlers).

IPv4 addresses are modelled as natural numbers below `2^32`; the Go `inc`
function increments a 4-byte slice with carry, which on IPv4 addresses is
exactly `(ip + 1) % 2^32`.  The Go allocation map `map[string]net.IP` is
modelled as an association list `List (String × Nat)`; map-insertion order is
immaterial to every operation embedded here (lookups and value scans only).
File I/O is modelled by passing the store contents explicitly.
-/

namespace XvmCni

/-- `2^32`, the wrap-around modulus of 4-byte IPv4 addresses. -/
def ipMod : Nat := 4294967296

/-- Embeds `inc` (ipam.go): byte-wise increment with carry of a 4-byte IPv4
address, i.e. increment modulo `2^32`. -/
def incIP (ip : Nat) : Nat := (ip + 1) % ipMod

/-- The IPAM configuration after parsing: the subnet (`*net.IPNet`, a masked
network address plus prefix length) and the gateway address, as held in the
`IPAM` struct of ipam.go. -/
structure IPAMCfg where
  network : Nat
  prefixLen : Nat
  gateway : Nat
deriving DecidableEq, Repr

/-- Number of addresses covered by the subnet: `2^(32 - prefixLen)`. -/
def subnetSize (c : IPAMCfg) : Nat := 2 ^ (32 - c.prefixLen)

/-- Embeds `net.IP.Mask` for a `/p` IPv4 CIDR mask: clear the low `32 - p`
bits. -/
def maskIP (ip p : Nat) : Nat := ip / 2 ^ (32 - p) * 2 ^ (32 - p)

/-- Embeds `(*net.IPNet).Contains`: an address is in the subnet iff masking
off the host bits yields the (already masked) network address. -/
def containsIP (c : IPAMCfg) (ip : Nat) : Bool :=
  maskIP ip c.prefixLen == c.network

/-- The in-memory allocation map `IPAM.Allocations : map[string]net.IP`,
as an association list from container ID to address. -/
abbrev Allocs := List (String × Nat)

/-- Embeds the inner loop of `findAvailableIP` that checks whether `ip`
already appears among the values of `Allocations`. -/
def isAllocated (allocs : Allocs) (ip : Nat) : Bool :=
  allocs.any (fun p => p.2 == ip)

/-- Embeds the scan loop of `findAvailableIP` (ipam.go lines 123-147):
while the candidate is inside the subnet, return it if it is unallocated,
otherwise increment (skipping the gateway) and continue; leaving the subnet
yields the "no available IP addresses in subnet" error (`none` here).
The Go loop is unbounded; the `fuel` argument is a termination device only,
and `findAvailableIP` below supplies enough fuel that it never runs out
before the subnet is exhausted (for subnets with at least one network bit,
see `findLoop_eq_scanFrom`). -/
def findLoop (c : IPAMCfg) (allocs : Allocs) : Nat → Nat → Option Nat
  | 0, _ => none
  | fuel + 1, ip =>
    if containsIP c ip then
      if isAllocated allocs ip then
        let ip1 := incIP ip
        findLoop c allocs fuel (if ip1 = c.gateway then incIP ip1 else ip1)
      else some ip
    else none

/-- Embeds `findAvailableIP` (ipam.go lines 109-148): start from the network
address, increment once to network-address+1, skip the gateway, then run the
scan loop. -/
def findAvailableIP (c : IPAMCfg) (allocs : Allocs) : Option Nat :=
  let ip0 := incIP c.network
  let start := if ip0 = c.gateway then incIP ip0 else ip0
  findLoop c allocs (subnetSize c + 1) start

/-- The errors `Allocate`/`Release` can surface: the scan exhausting the
subnet ("no available IP addresses in subnet") and a `saveAllocations`
failure. -/
inductive AllocErr where
  | subnetExhausted
  | persistenceError
deriving DecidableEq, Repr

/-- Embeds `IPAM.Allocate` (ipam.go lines 65-87).  The outcome of
`saveAllocations` (an external file write) is passed in as `saveOk`; note
that on a save failure the Go code has already inserted the entry into the
in-memory map and returns the error without rolling back. -/
def allocate (c : IPAMCfg) (st : Allocs) (containerID : String) (saveOk : Bool) :
    Except AllocErr Nat × Allocs :=
  match st.lookup containerID with
  | some ip => (Except.ok ip, st)
  | none =>
    match findAvailableIP c st with
    | none => (Except.error AllocErr.subnetExhausted, st)
    | some ip =>
      let st' := (containerID, ip) :: st
      if saveOk then (Except.ok ip, st') else (Except.error AllocErr.persistenceError, st')

/-- Embeds `IPAM.Release` (ipam.go lines 90-106): no-op success when the
container has no allocation; otherwise delete the entry and save (again the
deletion is not rolled back if the save fails). -/
def release (st : Allocs) (containerID : String) (saveOk : Bool) :
    Except AllocErr Unit × Allocs :=
  match st.lookup containerID with
  | none => (Except.ok (), st)
  | some _ =>
    let st' := st.filter (fun p => p.1 != containerID)
    if saveOk then (Except.ok (), st') else (Except.error AllocErr.persistenceError, st')

/-- One lifecycle operation against the allocator, with the outcome of the
accompanying `saveAllocations` call. -/
inductive IPAMOp where
  | alloc (containerID : String) (saveOk : Bool)
  | rel (containerID : String) (saveOk : Bool)

/-- The state after one operation. -/
def applyOp (c : IPAMCfg) (st : Allocs) : IPAMOp → Allocs
  | IPAMOp.alloc cid s => (allocate c st cid s).2
  | IPAMOp.rel cid s => (release st cid s).2

/-- The state after a sequence of operations. -/
def applyOps (c : IPAMCfg) (ops : List IPAMOp) (st : Allocs) : Allocs :=
  ops.foldl (applyOp c) st

/-- Run `Allocate` (with successful saves) for each ID in turn, failing if
any call fails. -/
def runAllocs (c : IPAMCfg) : List String → Allocs → Option Allocs
  | [], st => some st
  | cid :: rest, st =>
    match allocate c st cid true with
    | (Except.ok _, st') => runAllocs c rest st'
    | (Except.error _, _) => none

/-- The test subnet `10.244.0.0/24` with gateway `10.244.0.1`
(`10.244.0.0` = 183762944). -/
def c24 : IPAMCfg := ⟨183762944, 24, 183762945⟩

/-- The invariant on the in-memory mapping: the recorded addresses are
pairwise distinct and the gateway is never among them. -/
def ValuesOk (c : IPAMCfg) (st : Allocs) : Prop :=
  (st.map Prod.snd).Nodup ∧ c.gateway ∉ st.map Prod.snd

/-- Well-formedness of a parsed IPv4 subnet, as produced by `net.ParseCIDR`:
prefix length between 1 and 32 and a masked network address below `2^32`. -/
def GoodCfg (c : IPAMCfg) : Prop :=
  1 ≤ c.prefixLen ∧ c.prefixLen ≤ 32 ∧ c.network < ipMod ∧
    maskIP c.network c.prefixLen = c.network

/-- The tail of the scan order beginning at address `ip`: the addresses from
`ip` up to the last subnet address, with the gateway removed. -/
def scanFrom (c : IPAMCfg) (ip : Nat) : List Nat :=
  (List.range' ip (c.network + subnetSize c - ip)).filter (fun a => a != c.gateway)

/-- The full scan order of `findAvailableIP`: `network+1` up to the last
subnet address (`network + subnetSize - 1`, the IPv4 broadcast address for
this subnet), with the gateway removed. -/
def scanRange (c : IPAMCfg) : List Nat := scanFrom c (c.network + 1)

/-! ### Textual form of IPv4 addresses (`net.IP.String` / `net.ParseIP`) -/

/-- The decimal digit character for `n < 10`. -/
def digitChar (n : Nat) : Char := Char.ofNat (48 + n)

/-- Decimal notation of one address byte (`0 ≤ b ≤ 255`), as produced by
the `uitoa` used by `net.IP.String`. -/
def octetChars (b : Nat) : List Char :=
  if b < 10 then [digitChar b]
  else if b < 100 then [digitChar (b / 10), digitChar (b % 10)]
  else [digitChar (b / 100), digitChar (b / 10 % 10), digitChar (b % 10)]

/-- Embeds `net.IP.String` for a 4-byte address: dotted-decimal form. -/
def ipChars (n : Nat) : List Char :=
  octetChars (n / 16777216 % 256) ++ ('.' :: (octetChars (n / 65536 % 256) ++
    ('.' :: (octetChars (n / 256 % 256) ++ ('.' :: octetChars (n % 256))))))

/-- `net.IP.String` as a Lean `String`. -/
def ipToString (n : Nat) : String := String.mk (ipChars n)

/-- Decimal digit test on characters. -/
def isDigitC (c : Char) : Bool := 48 ≤ c.toNat && c.toNat ≤ 57

/-- Value of a decimal digit character. -/
def digitVal (c : Char) : Nat := c.toNat - 48

/-- Value of a string of decimal digits. -/
def digitsToNat (ds : List Char) : Nat := ds.foldl (fun a c => a * 10 + digitVal c) 0

/-- Embeds the per-field parsing of dotted-decimal IPv4 in `net.ParseIP`:
one to three decimal digits, no leading zero, value at most 255; returns
the value and the unconsumed input. -/
def parseOctet (cs : List Char) : Option (Nat × List Char) :=
  let ds := cs.takeWhile isDigitC
  let rest := cs.dropWhile isDigitC
  if ds.isEmpty then none
  else if 1 < ds.length ∧ ds.headD ' ' = '0' then none
  else if 3 < ds.length then none
  else if 255 < digitsToNat ds then none
  else some (digitsToNat ds, rest)

/-- Embeds `net.ParseIP` restricted to its IPv4 dotted-decimal grammar
(all addresses this repository handles are IPv4; IPv6 text forms are
outside the claims considered here). -/
def parseIPv4Chars (cs : List Char) : Option Nat :=
  match parseOctet cs with
  | some (a, '.' :: r1) =>
    (match parseOctet r1 with
     | some (b, '.' :: r2) =>
       (match parseOctet r2 with
        | some (c, '.' :: r3) =>
          (match parseOctet r3 with
           | some (d, []) => some (((a * 256 + b) * 256 + c) * 256 + d)
           | _ => none)
        | _ => none)
     | _ => none)
  | _ => none

/-- `net.ParseIP` on a Lean `String` (IPv4 grammar). -/
def parseIPv4 (s : String) : Option Nat := parseIPv4Chars s.data

/-- Embeds the prefix-length parsing of `net.ParseCIDR`: a non-empty string
of decimal digits whose value is at most 32 (Go's `dtoi` accepts leading
zeros here). -/
def parsePrefixLen (cs : List Char) : Option Nat :=
  if cs.isEmpty then none
  else if cs.all isDigitC then
    if digitsToNat cs ≤ 32 then some (digitsToNat cs) else none
  else none

/-- Embeds `net.ParseCIDR` for IPv4: split at the first slash, parse the
address part and the prefix length, and return the masked network address
(`ip.Mask(mask)`) with the prefix length. -/
def parseCIDRChars (cs : List Char) : Option (Nat × Nat) :=
  let addr := cs.takeWhile (fun c => c != '/')
  match cs.dropWhile (fun c => c != '/') with
  | '/' :: maskPart =>
    (match parseIPv4Chars addr, parsePrefixLen maskPart with
     | some ip, some p => some (maskIP ip p, p)
     | _, _ => none)
  | _ => none

/-- `net.ParseCIDR` on a Lean `String`. -/
def parseCIDR (s : String) : Option (Nat × Nat) := parseCIDRChars s.data

/-! ### The persisted record and `New` -/

/-- The on-disk allocations record passed to `loadAllocations`: `none`
when `allocations.json` does not exist; `some (Except.error ())` when the
file exists but `json.Unmarshal` cannot parse it as an object of strings;
`some (Except.ok entries)` for a parsed JSON object, as key/value string
pairs. -/
abbrev StoreFile := Option (Except Unit (List (String × String)))

/-- The failure modes of `New`/`loadAllocations` (ipam.go): invalid subnet,
invalid gateway IP, unparseable record file, invalid stored address. -/
inductive NewError where
  | invalidSubnet
  | invalidGateway
  | corruptRecord
  | invalidStoredIP
deriving DecidableEq, Repr

/-- Embeds the entry-conversion loop of `loadAllocations` (ipam.go lines
177-183): parse every stored textual address, failing on an invalid one. -/
def parseEntries : List (String × String) → Except NewError Allocs
  | [] => Except.ok []
  | (id, s) :: rest =>
    match parseIPv4 s with
    | none => Except.error NewError.invalidStoredIP
    | some ip =>
      (match parseEntries rest with
       | Except.error e => Except.error e
       | Except.ok l => Except.ok ((id, ip) :: l))

/-- Embeds `loadAllocations` (ipam.go lines 161-186): empty mapping when no
record file exists, an error when the record cannot be parsed. -/
def loadAllocations (file : StoreFile) : Except NewError Allocs :=
  match file with
  | none => Except.ok []
  | some (Except.error _) => Except.error NewError.corruptRecord
  | some (Except.ok entries) => parseEntries entries

/-- Embeds `saveAllocations` (ipam.go lines 189-207): serialise every
address to its textual form, producing the JSON object's entries. -/
def saveAllocations (st : Allocs) : List (String × String) :=
  st.map (fun p => (p.1, ipToString p.2))

/-- Embeds `New` (ipam.go lines 29-62): parse the subnet, then the gateway,
then load any existing allocations; each failure aborts before any
allocation logic runs. -/
def NewIPAM (subnetStr gatewayStr : String) (file : StoreFile) :
    Except NewError (IPAMCfg × Allocs) :=
  match parseCIDR subnetStr with
  | none => Except.error NewError.invalidSubnet
  | some (network, p) =>
    (match parseIPv4 gatewayStr with
     | none => Except.error NewError.invalidGateway
     | some gw =>
       (match loadAllocations file with
        | Except.error e => Except.error e
        | Except.ok allocs => Except.ok (⟨network, p, gw⟩, allocs)))

/-! ### The CNI command handlers (main.go) -/

/-- The plugin configuration after `json.Unmarshal` of the stdin document
(main.go `PluginConf`); absent fields are Go zero values. -/
structure PluginConf where
  hostInterface : String
  vxlanID : Nat
  mtu : Nat
  subnet : String
  gateway : String
  dataDir : String
deriving DecidableEq, Repr

/-- `vxlan.DefaultVxlanVNI` (vxlan.go). -/
def DefaultVxlanVNI : Nat := 10

/-- `vxlan.DefaultMTU` (vxlan.go). -/
def DefaultMTU : Nat := 1500

/-- The externally observable side-effecting steps of `cmdAdd` up to
address allocation, in program order (main.go lines 75-118). -/
inductive AddEffect where
  | enableIPForwarding
  | setupVxlan (hostInterface : String) (vxlanID mtu : Nat)
  | configureVxlanNetwork (subnet : String)
  | ipamNew (subnet gateway dataDir : String)
  | ipamAllocate (containerID : String)
deriving DecidableEq, Repr

/-- Embeds the configuration-handling prefix of `cmdAdd` (main.go lines
51-118): defaulting of `vxlanID`/`mtu`, validation of the required fields,
and — only when validation passes — the ordered side-effecting steps up to
address allocation.  An error result carries no effects: the Go code
returns before reaching any side effect. -/
def cmdAddPlan (conf : PluginConf) (containerID : String) :
    Except String (PluginConf × List AddEffect) :=
  let vni := if conf.vxlanID = 0 then DefaultVxlanVNI else conf.vxlanID
  let mtu := if conf.mtu = 0 then DefaultMTU else conf.mtu
  let conf' : PluginConf :=
    ⟨conf.hostInterface, vni, mtu, conf.subnet, conf.gateway, conf.dataDir⟩
  if conf'.hostInterface = "" then Except.error "hostInterface must be specified"
  else if conf'.subnet = "" then Except.error "subnet must be specified"
  else if conf'.gateway = "" then Except.error "gateway must be specified"
  else
    Except.ok (conf',
      [AddEffect.enableIPForwarding,
       AddEffect.setupVxlan conf'.hostInterface conf'.vxlanID conf'.mtu,
       AddEffect.configureVxlanNetwork conf'.subnet,
       AddEffect.ipamNew conf'.subnet conf'.gateway conf'.dataDir,
       AddEffect.ipamAllocate containerID])

/-- The externally observable steps of `cmdDel` (main.go lines 218-250).
The vocabulary also contains the tunnel teardown that `vxlan.CleanupVxlan`
offers, which `cmdDel` never performs. -/
inductive DelEffect where
  | ipamRelease (containerID : String)
  | delLinkByName (ifName : String)
  | cleanupVxlan (vxlanID : Nat)
deriving DecidableEq, Repr

/-- Models `ip.DelLinkByNameAddr` of the containernetworking plugins
library (pkg/ip/link_linux.go): it looks up the link by name and returns
the non-nil `ErrLinkNotFound` ("link not found") when the link does not
exist. -/
def delLinkByNameAddr (linkExists : Bool) : Except String Unit :=
  if linkExists then Except.ok () else Except.error "link not found"

/-- Embeds `cmdDel` (main.go lines 218-250) after configuration parsing and
IPAM construction: release the address (propagating a save failure), then,
when a namespace path was supplied, delete the namespace-side link by name,
propagating any error of that helper — including its link-not-found error.
Returns the final in-memory mapping and the performed effects. -/
def cmdDel (st : Allocs) (containerID netnsPath ifName : String)
    (saveOk linkExists : Bool) : Except String (Allocs × List DelEffect) :=
  match release st containerID saveOk with
  | (Except.error _, _) => Except.error "failed to release IP"
  | (Except.ok _, st') =>
    if netnsPath ≠ "" then
      (match delLinkByNameAddr linkExists with
       | Except.error e => Except.error e
       | Except.ok _ =>
         Except.ok (st', [DelEffect.ipamRelease containerID, DelEffect.delLinkByName ifName]))
    else Except.ok (st', [DelEffect.ipamRelease containerID])

/-- The subnet `10.0.0.0/30` with gateway `10.0.0.1` (`10.0.0.0` =
167772160): exactly two usable non-gateway addresses, `.2` and `.3`. -/
def c30 : IPAMCfg := ⟨167772160, 30, 167772161⟩

/-- A mapping binding 253 distinct workload IDs to the addresses
`10.244.0.2` … `10.244.0.254`. -/
def full253 : Allocs := (List.range 253).map (fun k => (toString k, 183762946 + k))

/-- A mapping binding 254 distinct workload IDs to the addresses
`10.244.0.2` … `10.244.0.255`. -/
def full254 : Allocs := (List.range 254).map (fun k => (toString k, 183762946 + k))


/-! ## Soundness of the scan loop -/

theorem incIP_ne (x : Nat) : incIP x ≠ x := by
  unfold incIP ipMod
  omega

theorem isAllocated_iff {allocs : Allocs} {ip : Nat} :
    isAllocated allocs ip = true ↔ ip ∈ allocs.map Prod.snd := by
  simp [isAllocated, List.any_eq_true, List.mem_map, Prod.exists]

theorem isAllocated_eq_false {allocs : Allocs} {ip : Nat} :
    isAllocated allocs ip = false ↔ ip ∉ allocs.map Prod.snd := by
  rw [← Bool.not_eq_true]
  exact not_congr isAllocated_iff

theorem findLoop_some_sound (c : IPAMCfg) (allocs : Allocs) :
    ∀ (fuel ip r : Nat), ip ≠ c.gateway → findLoop c allocs fuel ip = some r →
      isAllocated allocs r = false ∧ r ≠ c.gateway ∧ containsIP c r = true := by
  intro fuel
  induction fuel with
  | zero => intro ip r _ h; simp [findLoop] at h
  | succ fuel ih =>
    intro ip r hgw h
    simp only [findLoop] at h
    by_cases hc1 : containsIP c ip
    · rw [if_pos hc1] at h
      by_cases ha : isAllocated allocs ip
      · rw [if_pos ha] at h
        by_cases he : incIP ip = c.gateway
        · rw [if_pos he] at h
          exact ih _ r (he ▸ incIP_ne (incIP ip)) h
        · rw [if_neg he] at h
          exact ih _ r he h
      · rw [if_neg ha] at h
        cases h
        exact ⟨Bool.eq_false_iff.mpr ha, hgw, hc1⟩
    · rw [if_neg hc1] at h
      cases h

theorem findAvailableIP_sound {c : IPAMCfg} {allocs : Allocs} {r : Nat}
    (h : findAvailableIP c allocs = some r) :
    isAllocated allocs r = false ∧ r ≠ c.gateway ∧ containsIP c r = true := by
  simp only [findAvailableIP] at h
  by_cases he : incIP c.network = c.gateway
  · rw [if_pos he] at h
    exact findLoop_some_sound c allocs _ _ r (he ▸ incIP_ne (incIP c.network)) h
  · rw [if_neg he] at h
    exact findLoop_some_sound c allocs _ _ r he h

/-! ## The allocation-map invariant (claim C1) -/

theorem allocate_state_cases (c : IPAMCfg) (st : Allocs) (cid : String) (saveOk : Bool) :
    (allocate c st cid saveOk).2 = st ∨
      ∃ ip, findAvailableIP c st = some ip ∧ (allocate c st cid saveOk).2 = (cid, ip) :: st := by
  unfold allocate
  cases hlk : st.lookup cid with
  | some ip => exact Or.inl rfl
  | none =>
    cases hf : findAvailableIP c st with
    | none => exact Or.inl rfl
    | some ip =>
      refine Or.inr ⟨ip, rfl, ?_⟩
      cases saveOk <;> rfl

theorem allocate_preserves {c : IPAMCfg} {st : Allocs} (cid : String) (saveOk : Bool)
    (h : ValuesOk c st) : ValuesOk c (allocate c st cid saveOk).2 := by
  rcases allocate_state_cases c st cid saveOk with heq | ⟨ip, hf, heq⟩
  · rw [heq]; exact h
  · rw [heq]
    obtain ⟨hfree, hgw, _⟩ := findAvailableIP_sound hf
    rw [isAllocated_eq_false] at hfree
    exact ⟨List.nodup_cons.mpr ⟨hfree, h.1⟩,
      by simp only [List.map_cons, List.mem_cons]; rintro (h1 | h2)
         · exact hgw h1.symm
         · exact h.2 h2⟩

theorem release_preserves {c : IPAMCfg} {st : Allocs} (cid : String) (saveOk : Bool)
    (h : ValuesOk c st) : ValuesOk c (release st cid saveOk).2 := by
  unfold release
  cases hlk : st.lookup cid with
  | none => exact h
  | some ip =>
    have hsub : List.Sublist ((st.filter (fun p => p.1 != cid)).map Prod.snd)
        (st.map Prod.snd) :=
      (List.filter_sublist st).map Prod.snd
    have hvals : ValuesOk c (st.filter (fun p => p.1 != cid)) :=
      ⟨h.1.sublist hsub, fun hmem => h.2 (hsub.subset hmem)⟩
    cases saveOk <;> exact hvals

theorem applyOp_preserves {c : IPAMCfg} {st : Allocs} (op : IPAMOp)
    (h : ValuesOk c st) : ValuesOk c (applyOp c st op) := by
  cases op with
  | alloc cid s => exact allocate_preserves cid s h
  | rel cid s => exact release_preserves cid s h

theorem applyOps_preserves {c : IPAMCfg} (ops : List IPAMOp) :
    ∀ st : Allocs, ValuesOk c st → ValuesOk c (applyOps c ops st) := by
  induction ops with
  | nil => intro st h; exact h
  | cons op rest ih =>
    intro st h
    exact ih (applyOp c st op) (applyOp_preserves op h)

/-! ## Characterisation of the scan as a first-fit search

For any subnet with at least one network bit (`1 ≤ prefixLen ≤ 32`) whose
network address is properly masked — which is what `net.ParseCIDR` always
produces — the scan of `findAvailableIP` is exactly a first-fit search over
the addresses `network+1, …, network+subnetSize-1` with the gateway
removed. -/

theorem GoodCfg.size_le {c : IPAMCfg} (hc : GoodCfg c) :
    subnetSize c ≤ 2147483648 := by
  have h1 := hc.1
  have h : 32 - c.prefixLen ≤ 31 := by omega
  calc subnetSize c ≤ 2 ^ 31 := Nat.pow_le_pow_right (by norm_num) h
    _ = 2147483648 := by norm_num

theorem GoodCfg.align {c : IPAMCfg} (hc : GoodCfg c) :
    c.network / subnetSize c * subnetSize c = c.network := by
  have h4 := hc.2.2.2
  simpa [maskIP, subnetSize] using h4

theorem GoodCfg.network_add_size_le {c : IPAMCfg} (hc : GoodCfg c) :
    c.network + subnetSize c ≤ ipMod := by
  have hmod : ipMod = 2 ^ c.prefixLen * subnetSize c := by
    have h2 := hc.2.1
    unfold ipMod subnetSize
    rw [← pow_add]
    have he : c.prefixLen + (32 - c.prefixLen) = 32 := by omega
    rw [he]
    norm_num
  have hq : c.network / subnetSize c < 2 ^ c.prefixLen := by
    by_contra hq
    push_neg at hq
    have hle : 2 ^ c.prefixLen * subnetSize c ≤ c.network / subnetSize c * subnetSize c :=
      Nat.mul_le_mul_right _ hq
    rw [hc.align, ← hmod] at hle
    have := hc.2.2.1
    omega
  calc c.network + subnetSize c = (c.network / subnetSize c + 1) * subnetSize c := by
        rw [Nat.succ_mul, hc.align]
    _ ≤ 2 ^ c.prefixLen * subnetSize c := Nat.mul_le_mul_right _ hq
    _ = ipMod := hmod.symm

theorem containsIP_iff {c : IPAMCfg} (hc : GoodCfg c) (ip : Nat) :
    containsIP c ip = true ↔ c.network ≤ ip ∧ ip < c.network + subnetSize c := by
  have hs : 0 < subnetSize c := Nat.two_pow_pos _
  unfold containsIP maskIP
  rw [beq_iff_eq]
  constructor
  · intro h
    have hd : ip / subnetSize c * subnetSize c = c.network := h
    have hdm : subnetSize c * (ip / subnetSize c) + ip % subnetSize c = ip :=
      Nat.div_add_mod ip (subnetSize c)
    rw [Nat.mul_comm, hd] at hdm
    have hmlt : ip % subnetSize c < subnetSize c := Nat.mod_lt _ hs
    omega
  · rintro ⟨hlo, hhi⟩
    have hd : ip / subnetSize c = c.network / subnetSize c := by
      apply Nat.div_eq_of_lt_le
      · rw [hc.align]; exact hlo
      · rw [Nat.succ_mul, hc.align]; exact hhi
    show ip / subnetSize c * subnetSize c = c.network
    rw [hd, hc.align]

theorem scanFrom_nil {c : IPAMCfg} {ip : Nat} (h : c.network + subnetSize c ≤ ip) :
    scanFrom c ip = [] := by
  unfold scanFrom
  have h0 : c.network + subnetSize c - ip = 0 := by omega
  simp [h0]

theorem scanFrom_cons {c : IPAMCfg} {ip : Nat} (hlt : ip < c.network + subnetSize c)
    (hgw : ip ≠ c.gateway) : scanFrom c ip = ip :: scanFrom c (ip + 1) := by
  unfold scanFrom
  have h1 : c.network + subnetSize c - ip = (c.network + subnetSize c - (ip + 1)) + 1 := by
    omega
  rw [h1, List.range'_succ]
  rw [List.filter_cons_of_pos (by simp [hgw])]

theorem scanFrom_cons_gw {c : IPAMCfg} {ip : Nat} (hlt : ip < c.network + subnetSize c)
    (hgw : ip = c.gateway) : scanFrom c ip = scanFrom c (ip + 1) := by
  unfold scanFrom
  have h1 : c.network + subnetSize c - ip = (c.network + subnetSize c - (ip + 1)) + 1 := by
    omega
  rw [h1, List.range'_succ]
  rw [List.filter_cons_of_neg (by simp [hgw])]

theorem scanFrom_gw_skip {c : IPAMCfg} {ip : Nat} (hgw : ip = c.gateway) :
    scanFrom c ip = scanFrom c (ip + 1) := by
  by_cases hlt : ip < c.network + subnetSize c
  · exact scanFrom_cons_gw hlt hgw
  · rw [scanFrom_nil (by omega), scanFrom_nil (by omega)]

theorem findLoop_none_of_not_contains {c : IPAMCfg} {allocs : Allocs} {fuel ip : Nat}
    (h : containsIP c ip = false) : findLoop c allocs fuel ip = none := by
  cases fuel with
  | zero => rfl
  | succ fuel => simp [findLoop, h]

theorem findLoop_eq_scanFrom {c : IPAMCfg} (hc : GoodCfg c) (allocs : Allocs) :
    ∀ fuel ip : Nat, c.network + 1 ≤ ip → ip ≠ c.gateway →
      c.network + subnetSize c ≤ ip + fuel →
      findLoop c allocs fuel ip =
        (scanFrom c ip).find? (fun a => !isAllocated allocs a) := by
  have hs1 : 1 ≤ subnetSize c := Nat.one_le_two_pow
  have hs2 : subnetSize c ≤ 2147483648 := hc.size_le
  have hW : c.network + subnetSize c ≤ ipMod := hc.network_add_size_le
  have hn : c.network < ipMod := hc.2.2.1
  have hWlit : ipMod = 4294967296 := rfl
  intro fuel
  induction fuel with
  | zero =>
    intro ip hip hgw hfuel
    rw [scanFrom_nil (by omega)]
    rfl
  | succ fuel ih =>
    intro ip hip hgw hfuel
    simp only [findLoop]
    by_cases hlt : ip < c.network + subnetSize c
    · have hcont : containsIP c ip = true := (containsIP_iff hc ip).mpr ⟨by omega, hlt⟩
      rw [if_pos hcont, scanFrom_cons hlt hgw]
      by_cases ha : isAllocated allocs ip = true
      · rw [if_pos ha, List.find?_cons_of_neg _ (by simp [ha])]
        by_cases htop : ip + 1 = ipMod
        · have hB : c.network + subnetSize c = ip + 1 := by omega
          rw [show scanFrom c (ip + 1) = [] from scanFrom_nil (by omega), List.find?_nil]
          have h0 : incIP ip = 0 := by unfold incIP; rw [htop, Nat.mod_self]
          have hnet2 : 2 ≤ c.network := by omega
          apply findLoop_none_of_not_contains
          rw [← Bool.not_eq_true, containsIP_iff hc]
          rw [h0]
          by_cases h0g : (0 : Nat) = c.gateway
          · rw [if_pos h0g]
            have h1 : incIP 0 = 1 := by unfold incIP ipMod; norm_num
            rw [h1]; omega
          · rw [if_neg h0g]; omega
        · have hinc : incIP ip = ip + 1 := by
            unfold incIP; exact Nat.mod_eq_of_lt (by omega)
          rw [hinc]
          by_cases hg1 : ip + 1 = c.gateway
          · rw [if_pos hg1, scanFrom_gw_skip hg1]
            by_cases htop2 : ip + 2 = ipMod
            · have h0 : incIP (ip + 1) = 0 := by
                unfold incIP; rw [show ip + 1 + 1 = ipMod from by omega, Nat.mod_self]
              rw [h0, show scanFrom c (ip + 2) = [] from scanFrom_nil (by omega),
                List.find?_nil]
              apply findLoop_none_of_not_contains
              rw [← Bool.not_eq_true, containsIP_iff hc]
              omega
            · have hinc2 : incIP (ip + 1) = ip + 2 := by
                unfold incIP; exact Nat.mod_eq_of_lt (by omega)
              rw [hinc2]
              exact ih (ip + 2) (by omega) (by omega) (by omega)
          · rw [if_neg hg1]
            exact ih (ip + 1) (by omega) hg1 (by omega)
      · rw [if_neg ha, List.find?_cons_of_pos _ (by simp [ha])]
    · have hcont : containsIP c ip = false := by
        rw [← Bool.not_eq_true, containsIP_iff hc]
        omega
      rw [if_neg (by simp [hcont]), scanFrom_nil (by omega)]
      rfl

theorem findAvailableIP_eq_scan {c : IPAMCfg} (hc : GoodCfg c) (allocs : Allocs) :
    findAvailableIP c allocs =
      (scanRange c).find? (fun a => !isAllocated allocs a) := by
  have hs1 : 1 ≤ subnetSize c := Nat.one_le_two_pow
  have hs2 : subnetSize c ≤ 2147483648 := hc.size_le
  have hW : c.network + subnetSize c ≤ ipMod := hc.network_add_size_le
  have hn : c.network < ipMod := hc.2.2.1
  have hWlit : ipMod = 4294967296 := rfl
  simp only [findAvailableIP, scanRange]
  by_cases hn1 : c.network + 1 < ipMod
  · have hinc : incIP c.network = c.network + 1 := by
      unfold incIP; exact Nat.mod_eq_of_lt hn1
    rw [hinc]
    by_cases hg : c.network + 1 = c.gateway
    · rw [if_pos hg, scanFrom_gw_skip hg]
      by_cases htop2 : c.network + 2 = ipMod
      · have h0 : incIP (c.network + 1) = 0 := by
          unfold incIP; rw [show c.network + 1 + 1 = ipMod from by omega, Nat.mod_self]
        rw [h0, show scanFrom c (c.network + 2) = [] from scanFrom_nil (by omega),
          List.find?_nil]
        apply findLoop_none_of_not_contains
        rw [← Bool.not_eq_true, containsIP_iff hc]
        omega
      · have hinc2 : incIP (c.network + 1) = c.network + 2 := by
          unfold incIP; exact Nat.mod_eq_of_lt (by omega)
        rw [hinc2]
        exact findLoop_eq_scanFrom hc allocs (subnetSize c + 1) (c.network + 2)
          (by omega) (by omega) (by omega)
    · rw [if_neg hg]
      exact findLoop_eq_scanFrom hc allocs (subnetSize c + 1) (c.network + 1)
        (by omega) hg (by omega)
  · have hn1' : c.network + 1 = ipMod := by omega
    have hdvd1 : subnetSize c ∣ c.network :=
      ⟨c.network / subnetSize c, by rw [Nat.mul_comm]; exact hc.align.symm⟩
    have hdvd2 : subnetSize c ∣ ipMod := by
      unfold subnetSize ipMod
      rw [show (4294967296 : Nat) = 2 ^ 32 from by norm_num]
      exact pow_dvd_pow 2 (by omega)
    have hs_eq : subnetSize c = 1 := by
      have h1 : subnetSize c ∣ 1 := by
        have hd := Nat.dvd_sub' hdvd2 hdvd1
        rwa [show ipMod - c.network = 1 from by omega] at hd
      exact Nat.dvd_one.mp h1
    rw [show scanFrom c (c.network + 1) = [] from scanFrom_nil (by omega), List.find?_nil]
    have h0 : incIP c.network = 0 := by unfold incIP; rw [hn1', Nat.mod_self]
    rw [h0]
    by_cases h0g : (0 : Nat) = c.gateway
    · rw [if_pos h0g]
      have h1 : incIP 0 = 1 := by unfold incIP ipMod; norm_num
      rw [h1]
      apply findLoop_none_of_not_contains
      rw [← Bool.not_eq_true, containsIP_iff hc]
      omega
    · rw [if_neg h0g]
      apply findLoop_none_of_not_contains
      rw [← Bool.not_eq_true, containsIP_iff hc]
      omega

/-- **C1.** After any sequence of `Allocate`/`Release` operations starting
from the empty mapping (whatever the outcomes of the accompanying saves),
the recorded addresses are pairwise distinct (the mapping is injective) and
the configured gateway never appears as a recorded address.  Consequently no
two `Allocate` calls with distinct workload IDs can return the same address,
and no call returns the gateway. -/
theorem allocations_injective_and_gateway_free (c : IPAMCfg) (ops : List IPAMOp) :
    ((applyOps c ops []).map Prod.snd).Nodup ∧
      c.gateway ∉ (applyOps c ops []).map Prod.snd :=
  applyOps_preserves ops [] ⟨List.nodup_nil, by simp⟩

/-! ## Lookup helpers -/

theorem lookup_cons_self {cid : String} {ip : Nat} {st : Allocs} :
    ((cid, ip) :: st).lookup cid = some ip := by
  simp [List.lookup]

theorem lookup_cons_ne {a k : String} {b : Nat} {l : Allocs} (h : a ≠ k) :
    ((k, b) :: l).lookup a = l.lookup a := by
  simp only [List.lookup]
  rw [show (a == k) = false from beq_eq_false_iff_ne.mpr h]

theorem lookup_filter_self (st : Allocs) (cid : String) :
    (st.filter (fun p => p.1 != cid)).lookup cid = none := by
  induction st with
  | nil => rfl
  | cons p rest ih =>
    obtain ⟨k, b⟩ := p
    by_cases h : k = cid
    · rw [List.filter_cons_of_neg (by simp [h])]
      exact ih
    · rw [List.filter_cons_of_pos (by simp [h])]
      rw [lookup_cons_ne (fun he => h he.symm)]
      exact ih

theorem goodCfg_c24 : GoodCfg c24 :=
  ⟨by decide, by decide, by decide, by decide⟩

theorem goodCfg_c30 : GoodCfg c30 :=
  ⟨by decide, by decide, by decide, by decide⟩

/-- Evaluation lemma for `allocate` when a fresh ID is allocated with a
successful save. -/
theorem allocate_found {c : IPAMCfg} {st : Allocs} {cid : String} {ip : Nat}
    (h1 : st.lookup cid = none) (h2 : findAvailableIP c st = some ip) :
    allocate c st cid true = (Except.ok ip, (cid, ip) :: st) := by
  unfold allocate
  rw [h1, h2]
  rfl

/-- Evaluation lemma for `allocate` when the subnet is exhausted. -/
theorem allocate_exhausted_of {c : IPAMCfg} {st : Allocs} {cid : String}
    (h1 : st.lookup cid = none) (h2 : findAvailableIP c st = none) (saveOk : Bool) :
    allocate c st cid saveOk = (Except.error AllocErr.subnetExhausted, st) := by
  unfold allocate
  rw [h1, h2]

/-! ## Claim C2: idempotence of Allocate -/

/-- **C2.** `Allocate` is idempotent per workload identifier: when the
identifier already has a recorded address, it is returned unchanged with
the mapping untouched whatever the save outcome (no save is attempted);
and a second `Allocate` for an identifier whose first call succeeded
returns the same address and leaves the mapping of the first call
unchanged. -/
theorem allocate_idempotent :
    (∀ (c : IPAMCfg) (st : Allocs) (cid : String) (ip : Nat) (saveOk : Bool),
        st.lookup cid = some ip → allocate c st cid saveOk = (Except.ok ip, st)) ∧
      ∀ (c : IPAMCfg) (st : Allocs) (cid : String) (ip : Nat) (saveOk saveOk' : Bool),
        (allocate c st cid saveOk).1 = Except.ok ip →
          allocate c (allocate c st cid saveOk).2 cid saveOk' =
            (Except.ok ip, (allocate c st cid saveOk).2) := by
  constructor
  · intro c st cid ip saveOk hlk
    unfold allocate
    rw [hlk]
  · intro c st cid ip saveOk saveOk' h
    cases hlk : st.lookup cid with
    | some ip0 =>
      have he : allocate c st cid saveOk = (Except.ok ip0, st) := by
        unfold allocate; rw [hlk]
      rw [he] at h ⊢
      simp only [Except.ok.injEq] at h
      subst h
      unfold allocate
      rw [hlk]
    | none =>
      cases hf : findAvailableIP c st with
      | none =>
        have he : allocate c st cid saveOk = (Except.error AllocErr.subnetExhausted, st) := by
          unfold allocate; rw [hlk, hf]
        rw [he] at h
        simp at h
      | some ip0 =>
        cases saveOk with
        | false =>
          have he : allocate c st cid false =
              (Except.error AllocErr.persistenceError, (cid, ip0) :: st) := by
            unfold allocate; rw [hlk, hf]; rfl
          rw [he] at h
          simp at h
        | true =>
          have he : allocate c st cid true = (Except.ok ip0, (cid, ip0) :: st) := by
            unfold allocate; rw [hlk, hf]; rfl
          rw [he] at h ⊢
          simp only [Except.ok.injEq] at h
          subst h
          unfold allocate
          rw [lookup_cons_self]

/-- Witness for C2 at concrete inputs. -/
theorem allocate_idempotent_witness :
    allocate c24 [("c1", 183762946)] "c1" true =
        (Except.ok 183762946, [("c1", 183762946)]) ∧
      allocate c24 (allocate c24 [] "c1" true).2 "c1" true =
        (Except.ok 183762946, (allocate c24 [] "c1" true).2) :=
  ⟨allocate_idempotent.1 c24 [("c1", 183762946)] "c1" 183762946 true (by decide),
   allocate_idempotent.2 c24 [] "c1" 183762946 true true (by rfl)⟩

/-! ## Claim C5: cmdDel on an already-deleted link -/

/-- **C5** (evaluation at the failing input).  With a namespace path
supplied and the namespace-side link already gone, `cmdDel` propagates the
link-not-found error of `ip.DelLinkByNameAddr` and fails — even though the
release of the (absent) IPAM record succeeded — contradicting the claim
that DEL does not fail when the link is already gone.  (The claim's other
parts do hold: the release is a tolerated no-op and no tunnel teardown
appears anywhere in `cmdDel`.) -/
theorem cmdDel_fails_when_link_already_gone :
    cmdDel [] "ctr1" "/var/run/netns/testns" "eth0" true false =
      Except.error "link not found" := by rfl

/-! ## Claim C8: persistence failure does not roll back memory -/

/-- **C8.** When the save fails, `Allocate` returns the persistence error
while the in-memory mapping retains the newly inserted entry, and `Release`
returns the persistence error with the entry already removed: the
in-memory state is not rolled back on persistence failure. -/
theorem save_failure_not_rolled_back :
    (∀ (c : IPAMCfg) (st : Allocs) (cid : String) (ip : Nat),
        st.lookup cid = none → findAvailableIP c st = some ip →
        allocate c st cid false =
            (Except.error AllocErr.persistenceError, (cid, ip) :: st) ∧
          ((allocate c st cid false).2).lookup cid = some ip) ∧
      ∀ (st : Allocs) (cid : String) (ip : Nat),
        st.lookup cid = some ip →
        release st cid false =
            (Except.error AllocErr.persistenceError,
              st.filter (fun p => p.1 != cid)) ∧
          ((release st cid false).2).lookup cid = none := by
  constructor
  · intro c st cid ip hlk hf
    have he : allocate c st cid false =
        (Except.error AllocErr.persistenceError, (cid, ip) :: st) := by
      unfold allocate; rw [hlk, hf]; rfl
    refine ⟨he, ?_⟩
    rw [he]
    exact lookup_cons_self
  · intro st cid ip hlk
    have he : release st cid false =
        (Except.error AllocErr.persistenceError, st.filter (fun p => p.1 != cid)) := by
      unfold release; rw [hlk]; rfl
    refine ⟨he, ?_⟩
    rw [he]
    exact lookup_filter_self st cid

/-- Witness for C8 at concrete inputs. -/
theorem save_failure_not_rolled_back_witness :
    (allocate c24 [] "c1" false =
        (Except.error AllocErr.persistenceError, [("c1", 183762946)]) ∧
      ((allocate c24 [] "c1" false).2).lookup "c1" = some 183762946) ∧
      (release [("c1", 183762946)] "c1" false =
          (Except.error AllocErr.persistenceError, []) ∧
        ((release [("c1", 183762946)] "c1" false).2).lookup "c1" = none) :=
  ⟨save_failure_not_rolled_back.1 c24 [] "c1" 183762946 (by decide) (by decide),
   save_failure_not_rolled_back.2 [("c1", 183762946)] "c1" 183762946 (by decide)⟩

/-! ## Claim C9: cmdAdd validation and defaulting -/

/-- **C9.** `cmdAdd` fails with the matching invalid-configuration error
whenever `hostInterface`, `subnet` or `gateway` is absent (the Go zero
value `""`), and an error result carries no side effects; when validation
passes, the effect trace runs in program order with `vxlanID`/`mtu`
defaulted to 10/1500 when absent (zero) before use. -/
theorem cmdAdd_validates_and_defaults :
    (∀ (conf : PluginConf) (cid : String), conf.hostInterface = "" →
        cmdAddPlan conf cid = Except.error "hostInterface must be specified") ∧
      (∀ (conf : PluginConf) (cid : String), conf.hostInterface ≠ "" →
        conf.subnet = "" →
        cmdAddPlan conf cid = Except.error "subnet must be specified") ∧
      (∀ (conf : PluginConf) (cid : String), conf.hostInterface ≠ "" →
        conf.subnet ≠ "" → conf.gateway = "" →
        cmdAddPlan conf cid = Except.error "gateway must be specified") ∧
      ∀ (conf : PluginConf) (cid : String), conf.hostInterface ≠ "" →
        conf.subnet ≠ "" → conf.gateway ≠ "" →
        cmdAddPlan conf cid = Except.ok
          (⟨conf.hostInterface,
            if conf.vxlanID = 0 then DefaultVxlanVNI else conf.vxlanID,
            if conf.mtu = 0 then DefaultMTU else conf.mtu,
            conf.subnet, conf.gateway, conf.dataDir⟩,
           [AddEffect.enableIPForwarding,
            AddEffect.setupVxlan conf.hostInterface
              (if conf.vxlanID = 0 then DefaultVxlanVNI else conf.vxlanID)
              (if conf.mtu = 0 then DefaultMTU else conf.mtu),
            AddEffect.configureVxlanNetwork conf.subnet,
            AddEffect.ipamNew conf.subnet conf.gateway conf.dataDir,
            AddEffect.ipamAllocate cid]) := by
  refine ⟨?_, ?_, ?_, ?_⟩
  · intro conf cid h1
    unfold cmdAddPlan
    rw [if_pos h1]
  · intro conf cid h1 h2
    unfold cmdAddPlan
    rw [if_neg h1, if_pos h2]
  · intro conf cid h1 h2 h3
    unfold cmdAddPlan
    rw [if_neg h1, if_neg h2, if_pos h3]
  · intro conf cid h1 h2 h3
    unfold cmdAddPlan
    rw [if_neg h1, if_neg h2, if_neg h3]

/-- Witness for C9 at concrete configurations. -/
theorem cmdAdd_validates_and_defaults_witness :
    cmdAddPlan ⟨"", 0, 0, "", "", ""⟩ "ctr1" =
        Except.error "hostInterface must be specified" ∧
      cmdAddPlan ⟨"eth0", 0, 0, "", "", ""⟩ "ctr1" =
        Except.error "subnet must be specified" ∧
      cmdAddPlan ⟨"eth0", 0, 0, "10.244.0.0/24", "", ""⟩ "ctr1" =
        Except.error "gateway must be specified" ∧
      cmdAddPlan ⟨"eth0", 0, 0, "10.244.0.0/24", "10.244.0.1", ""⟩ "ctr1" =
        Except.ok
          (⟨"eth0", 10, 1500, "10.244.0.0/24", "10.244.0.1", ""⟩,
           [AddEffect.enableIPForwarding,
            AddEffect.setupVxlan "eth0" 10 1500,
            AddEffect.configureVxlanNetwork "10.244.0.0/24",
            AddEffect.ipamNew "10.244.0.0/24" "10.244.0.1" "",
            AddEffect.ipamAllocate "ctr1"]) :=
  ⟨cmdAdd_validates_and_defaults.1 ⟨"", 0, 0, "", "", ""⟩ "ctr1" rfl,
   cmdAdd_validates_and_defaults.2.1 ⟨"eth0", 0, 0, "", "", ""⟩ "ctr1"
     (by decide) rfl,
   cmdAdd_validates_and_defaults.2.2.1 ⟨"eth0", 0, 0, "10.244.0.0/24", "", ""⟩ "ctr1"
     (by decide) (by decide) rfl,
   cmdAdd_validates_and_defaults.2.2.2 ⟨"eth0", 0, 0, "10.244.0.0/24", "10.244.0.1", ""⟩
     "ctr1" (by decide) (by decide) (by decide)⟩

/-! ## Claim C3: first-fit scan order -/

/-- **C3.** For an identifier with no recorded address the scan is a
first-fit search: (general part) for any well-formed subnet the scan
returns the first address of the ordered candidate list `network+1, …,
network+subnetSize-1` minus the gateway that is not a recorded value;
(concrete part) with subnet `10.244.0.0/24` and gateway `10.244.0.1`,
"c1" gets `10.244.0.2`, then "c2" gets `10.244.0.3`, and after releasing
"c1", "c3" gets `10.244.0.2` again. -/
theorem allocate_first_fit_scan :
    (∀ (c : IPAMCfg) (allocs : Allocs), GoodCfg c →
        findAvailableIP c allocs =
          (scanRange c).find? (fun a => !isAllocated allocs a)) ∧
      parseCIDR "10.244.0.0/24" = some (c24.network, c24.prefixLen) ∧
      parseIPv4 "10.244.0.1" = some c24.gateway ∧
      allocate c24 [] "c1" true = (Except.ok 183762946, [("c1", 183762946)]) ∧
      ipToString 183762946 = "10.244.0.2" ∧
      allocate c24 [("c1", 183762946)] "c2" true =
        (Except.ok 183762947, [("c2", 183762947), ("c1", 183762946)]) ∧
      ipToString 183762947 = "10.244.0.3" ∧
      release [("c2", 183762947), ("c1", 183762946)] "c1" true =
        (Except.ok (), [("c2", 183762947)]) ∧
      allocate c24 [("c2", 183762947)] "c3" true =
        (Except.ok 183762946, [("c3", 183762946), ("c2", 183762947)]) := by
  refine ⟨fun c allocs hc => findAvailableIP_eq_scan hc allocs,
    by decide, by decide, by rfl, by decide, by rfl, by decide, by rfl, by rfl⟩

/-- Witness for the general part of C3 at a concrete state. -/
theorem allocate_first_fit_scan_witness :
    findAvailableIP c24 [("c1", 183762946)] =
      (scanRange c24).find? (fun a => !isAllocated [("c1", 183762946)] a) :=
  allocate_first_fit_scan.1 c24 [("c1", 183762946)] goodCfg_c24

/-! ## Claim C4: exhaustion after all usable addresses are taken -/

theorem scanRange_nodup (c : IPAMCfg) : (scanRange c).Nodup := by
  unfold scanRange scanFrom
  exact (List.nodup_range' _ _).filter _

/-- Running `Allocate` for fresh distinct identifiers succeeds as long as
the usable addresses are not exhausted, inserting one scanned address per
identifier. -/
theorem runAllocs_progress {c : IPAMCfg} (hc : GoodCfg c) :
    ∀ (ids : List String) (st : Allocs), ids.Nodup →
      (∀ id ∈ ids, st.lookup id = none) →
      (st.map Prod.snd).Nodup →
      (∀ v ∈ st.map Prod.snd, v ∈ scanRange c) →
      ids.length + st.length ≤ (scanRange c).length →
      ∃ st' : Allocs, runAllocs c ids st = some st' ∧
        (st'.map Prod.snd).Nodup ∧
        (∀ v ∈ st'.map Prod.snd, v ∈ scanRange c) ∧
        st'.length = st.length + ids.length ∧
        ∀ id : String, st'.lookup id ≠ none → st.lookup id ≠ none ∨ id ∈ ids := by
  intro ids
  induction ids with
  | nil =>
    intro st _ _ hvnd hvsub _
    exact ⟨st, rfl, hvnd, hvsub, by simp, fun id h => Or.inl h⟩
  | cons id rest ih =>
    intro st hnd hfree hvnd hvsub hlen
    have hlk : st.lookup id = none := hfree id (by simp)
    have hfind : ∃ ip, (scanRange c).find? (fun a => !isAllocated st a) = some ip := by
      cases hf : (scanRange c).find? (fun a => !isAllocated st a) with
      | some ip => exact ⟨ip, rfl⟩
      | none =>
        exfalso
        rw [List.find?_eq_none] at hf
        have hsub : scanRange c ⊆ st.map Prod.snd := by
          intro a ha
          cases hbb : isAllocated st a with
          | false => exact absurd (by simp [hbb]) (hf a ha)
          | true => exact isAllocated_iff.mp hbb
        have hsp : List.Subperm (scanRange c) (st.map Prod.snd) :=
          List.subperm_of_subset (scanRange_nodup c) hsub
        have hle := hsp.length_le
        rw [List.length_map] at hle
        simp only [List.length_cons] at hlen
        omega
    obtain ⟨ip, hfind⟩ := hfind
    have hf2 : findAvailableIP c st = some ip := by
      rw [findAvailableIP_eq_scan hc]
      exact hfind
    have hmem : ip ∈ scanRange c := List.mem_of_find?_eq_some hfind
    have hfree' : ip ∉ st.map Prod.snd := by
      have hp := List.find?_some hfind
      rw [Bool.not_eq_true'] at hp
      exact isAllocated_eq_false.mp hp
    have hal : allocate c st id true = (Except.ok ip, (id, ip) :: st) :=
      allocate_found hlk hf2
    have hrest : ∀ id' ∈ rest, ((id, ip) :: st).lookup id' = none := by
      intro id' hid'
      have hne : id' ≠ id := by
        intro he
        subst he
        exact (List.nodup_cons.mp hnd).1 hid'
      rw [lookup_cons_ne hne]
      exact hfree id' (by simp [hid'])
    obtain ⟨st', hrun, h1, h2, h3, h4⟩ :=
      ih ((id, ip) :: st) (List.nodup_cons.mp hnd).2 hrest
        (by rw [List.map_cons]; exact List.nodup_cons.mpr ⟨hfree', hvnd⟩)
        (by intro v hv
            rw [List.map_cons] at hv
            rcases List.mem_cons.mp hv with h | h
            · rw [h]; exact hmem
            · exact hvsub v h)
        (by simp only [List.length_cons] at hlen ⊢; omega)
    refine ⟨st', ?_, h1, h2, ?_, ?_⟩
    · simp only [runAllocs]
      rw [hal]
      exact hrun
    · simp only [List.length_cons] at h3 ⊢
      omega
    · intro id' h
      rcases h4 id' h with h | h
      · by_cases he : id' = id
        · exact Or.inr (by simp [he])
        · rw [lookup_cons_ne he] at h
          exact Or.inl h
      · exact Or.inr (by simp [h])

/-- **C4.** For a subnet with exactly N usable non-gateway addresses
(N = the length of the scan order `scanRange`), any N distinct identifiers
allocate successfully from the empty mapping, and the (N+1)-th distinct
`Allocate` then fails with the subnet-exhausted error. -/
theorem allocate_exhaustion (c : IPAMCfg) (hc : GoodCfg c) (ids : List String)
    (hnd : ids.Nodup) (hlen : ids.length = (scanRange c).length)
    (newID : String) (hnew : newID ∉ ids) :
    ∃ st : Allocs, runAllocs c ids [] = some st ∧
      (allocate c st newID true).1 = Except.error AllocErr.subnetExhausted := by
  obtain ⟨st, hrun, hvnd, hvsub, hlen', hlk⟩ :=
    runAllocs_progress hc ids [] hnd (by intro id _; rfl) (by simp) (by simp)
      (by simpa using hlen.le)
  refine ⟨st, hrun, ?_⟩
  have hfl : st.lookup newID = none := by
    cases hl : st.lookup newID with
    | none => rfl
    | some v =>
      exfalso
      rcases hlk newID (by rw [hl]; simp) with h | h
      · simp [List.lookup] at h
      · exact hnew h
  have hcover : ∀ a ∈ scanRange c, a ∈ st.map Prod.snd := by
    have hsp : List.Subperm (st.map Prod.snd) (scanRange c) :=
      List.subperm_of_subset hvnd (fun a ha => hvsub a ha)
    have hle : (scanRange c).length ≤ (st.map Prod.snd).length := by
      rw [List.length_map]
      simp only [List.length_nil] at hlen'
      omega
    have hperm := hsp.perm_of_length_le hle
    intro a ha
    exact hperm.mem_iff.mpr ha
  have hfind : findAvailableIP c st = none := by
    rw [findAvailableIP_eq_scan hc, List.find?_eq_none]
    intro a ha
    simp [isAllocated_iff.mpr (hcover a ha)]
  rw [allocate_exhausted_of hfl hfind]

/-- Witness for C4: `10.0.0.0/30` with gateway `10.0.0.1` has exactly the
two usable addresses `.2` and `.3`; two allocations succeed and a third
distinct one is refused. -/
theorem allocate_exhaustion_witness :
    ∃ st : Allocs, runAllocs c30 ["a", "b"] [] = some st ∧
      (allocate c30 st "c" true).1 = Except.error AllocErr.subnetExhausted :=
  allocate_exhaustion c30 goodCfg_c30 ["a", "b"] (by decide) (by decide) "c" (by decide)

/-! ## Claim C10: no broadcast exclusion -/

/-- **C10.** Every address the scan hands out lies inside the subnet and is
neither the network address nor the gateway; but there is no broadcast
exclusion: on `10.244.0.0/24` with `.2`-`.254` taken the scan hands out
`10.244.0.255` (the subnet's broadcast address), and only with `.255` also
taken does it report exhaustion. -/
theorem broadcast_allocatable :
    (∀ (c : IPAMCfg) (allocs : Allocs) (ip : Nat), GoodCfg c →
        findAvailableIP c allocs = some ip →
        containsIP c ip = true ∧ ip ≠ c.network ∧ ip ≠ c.gateway) ∧
      findAvailableIP c24 full253 = some 183763199 ∧
      ipToString 183763199 = "10.244.0.255" ∧
      findAvailableIP c24 full254 = none := by
  refine ⟨?_, by decide, by decide, by decide⟩
  intro c allocs ip hc h
  have hs1 : 1 ≤ subnetSize c := Nat.one_le_two_pow
  rw [findAvailableIP_eq_scan hc] at h
  have hmem : ip ∈ scanRange c := List.mem_of_find?_eq_some h
  simp only [scanRange, scanFrom] at hmem
  rw [List.mem_filter] at hmem
  obtain ⟨hr, hgw⟩ := hmem
  rw [List.mem_range'_1] at hr
  refine ⟨(containsIP_iff hc ip).mpr ⟨by omega, by omega⟩, by omega, ?_⟩
  simpa using hgw

/-- Witness for the general part of C10 at a concrete input. -/
theorem broadcast_allocatable_witness :
    containsIP c24 183762946 = true ∧
      183762946 ≠ c24.network ∧ 183762946 ≠ c24.gateway :=
  broadcast_allocatable.1 c24 [] 183762946 goodCfg_c24 (by decide)

/-! ## Round trip of the textual address form -/

theorem isDigitC_digitChar {x : Nat} (hx : x < 10) : isDigitC (digitChar x) = true := by
  interval_cases x <;> decide

theorem digitVal_digitChar {x : Nat} (hx : x < 10) : digitVal (digitChar x) = x := by
  interval_cases x <;> decide

theorem digitChar_ne_zero {x : Nat} (h1 : 1 ≤ x) (h2 : x < 10) : digitChar x ≠ '0' := by
  interval_cases x <;> decide

theorem octetChars_digits {b : Nat} (hb : b < 256) :
    ∀ ch ∈ octetChars b, isDigitC ch = true := by
  intro ch hch
  unfold octetChars at hch
  by_cases h1 : b < 10
  · rw [if_pos h1] at hch
    simp only [List.mem_singleton] at hch
    rw [hch]
    exact isDigitC_digitChar h1
  · rw [if_neg h1] at hch
    by_cases h2 : b < 100
    · rw [if_pos h2] at hch
      simp only [List.mem_cons, List.mem_singleton, List.not_mem_nil, or_false] at hch
      rcases hch with rfl | rfl
      · exact isDigitC_digitChar (by omega)
      · exact isDigitC_digitChar (by omega)
    · rw [if_neg h2] at hch
      simp only [List.mem_cons, List.mem_singleton, List.not_mem_nil, or_false] at hch
      rcases hch with rfl | rfl | rfl
      · exact isDigitC_digitChar (by omega)
      · exact isDigitC_digitChar (by omega)
      · exact isDigitC_digitChar (by omega)

theorem octetChars_ne_nil (b : Nat) : octetChars b ≠ [] := by
  unfold octetChars
  by_cases h1 : b < 10
  · rw [if_pos h1]; simp
  · rw [if_neg h1]
    by_cases h2 : b < 100
    · rw [if_pos h2]; simp
    · rw [if_neg h2]; simp

theorem octetChars_len_le (b : Nat) : (octetChars b).length ≤ 3 := by
  unfold octetChars
  by_cases h1 : b < 10
  · rw [if_pos h1]; simp
  · rw [if_neg h1]
    by_cases h2 : b < 100
    · rw [if_pos h2]; simp
    · rw [if_neg h2]; simp

theorem octetChars_no_leading_zero {b : Nat} (hb : b < 256) :
    ¬(1 < (octetChars b).length ∧ (octetChars b).headD ' ' = '0') := by
  unfold octetChars
  by_cases h1 : b < 10
  · rw [if_pos h1]
    simp
  · rw [if_neg h1]
    by_cases h2 : b < 100
    · rw [if_pos h2]
      rintro ⟨_, hz⟩
      simp only [List.headD_cons] at hz
      exact digitChar_ne_zero (by omega) (by omega) hz
    · rw [if_neg h2]
      rintro ⟨_, hz⟩
      simp only [List.headD_cons] at hz
      exact digitChar_ne_zero (by omega) (by omega) hz

theorem digitsToNat_octetChars {b : Nat} (hb : b < 256) :
    digitsToNat (octetChars b) = b := by
  unfold octetChars
  by_cases h1 : b < 10
  · rw [if_pos h1]
    simp [digitsToNat, digitVal_digitChar h1]
  · rw [if_neg h1]
    by_cases h2 : b < 100
    · rw [if_pos h2]
      simp only [digitsToNat, List.foldl, digitVal_digitChar (show b / 10 < 10 by omega),
        digitVal_digitChar (show b % 10 < 10 by omega)]
      omega
    · rw [if_neg h2]
      simp only [digitsToNat, List.foldl, digitVal_digitChar (show b / 100 < 10 by omega),
        digitVal_digitChar (show b / 10 % 10 < 10 by omega),
        digitVal_digitChar (show b % 10 < 10 by omega)]
      omega

theorem takeWhile_digits_append {ds rest : List Char}
    (hds : ∀ ch ∈ ds, isDigitC ch = true) (h1 : rest.takeWhile isDigitC = []) :
    (ds ++ rest).takeWhile isDigitC = ds := by
  induction ds with
  | nil => simpa using h1
  | cons d t ih =>
    rw [List.cons_append, List.takeWhile_cons, if_pos (hds d (by simp))]
    rw [ih (fun ch hch => hds ch (by simp [hch]))]

theorem dropWhile_digits_append {ds rest : List Char}
    (hds : ∀ ch ∈ ds, isDigitC ch = true) (h2 : rest.dropWhile isDigitC = rest) :
    (ds ++ rest).dropWhile isDigitC = rest := by
  induction ds with
  | nil => simpa using h2
  | cons d t ih =>
    rw [List.cons_append, List.dropWhile_cons, if_pos (hds d (by simp))]
    exact ih (fun ch hch => hds ch (by simp [hch]))

theorem parseOctet_round {b : Nat} (hb : b < 256) (rest : List Char)
    (h1 : rest.takeWhile isDigitC = []) (h2 : rest.dropWhile isDigitC = rest) :
    parseOctet (octetChars b ++ rest) = some (b, rest) := by
  have hdig := octetChars_digits hb
  simp only [parseOctet]
  rw [takeWhile_digits_append hdig h1, dropWhile_digits_append hdig h2]
  rw [if_neg (by simp [List.isEmpty_iff, octetChars_ne_nil b])]
  rw [if_neg (octetChars_no_leading_zero hb)]
  rw [if_neg (by have := octetChars_len_le b; omega)]
  rw [if_neg (by rw [digitsToNat_octetChars hb]; omega)]
  rw [digitsToNat_octetChars hb]

theorem parseOctet_round_nil {b : Nat} (hb : b < 256) :
    parseOctet (octetChars b) = some (b, []) := by
  have h := parseOctet_round hb [] rfl rfl
  rwa [List.append_nil] at h

theorem parseOctet_round_dot {b : Nat} (hb : b < 256) (t : List Char) :
    parseOctet (octetChars b ++ '.' :: t) = some (b, '.' :: t) :=
  parseOctet_round hb ('.' :: t) rfl rfl

theorem parseIPv4Chars_round {n : Nat} (hn : n < ipMod) :
    parseIPv4Chars (ipChars n) = some n := by
  have hn' : n < 4294967296 := hn
  have ha : n / 16777216 % 256 < 256 := Nat.mod_lt _ (by norm_num)
  have hb : n / 65536 % 256 < 256 := Nat.mod_lt _ (by norm_num)
  have hcc : n / 256 % 256 < 256 := Nat.mod_lt _ (by norm_num)
  have hd : n % 256 < 256 := Nat.mod_lt _ (by norm_num)
  simp only [ipChars, parseIPv4Chars,
    parseOctet_round_dot ha, parseOctet_round_dot hb,
    parseOctet_round_dot hcc, parseOctet_round_nil hd]
  congr 1
  have e1 : n / 256 / 256 = n / 65536 := by
    rw [Nat.div_div_eq_div_mul]
  have e2 : n / 65536 / 256 = n / 16777216 := by
    rw [Nat.div_div_eq_div_mul]
  have k1 := Nat.div_add_mod n 256
  have k2 := Nat.div_add_mod (n / 256) 256
  have k3 := Nat.div_add_mod (n / 65536) 256
  rw [e1] at k2
  rw [e2] at k3
  have k4 : n / 16777216 % 256 = n / 16777216 := Nat.mod_eq_of_lt (by omega)
  rw [k4]
  have k3' : n / 16777216 * 256 + n / 65536 % 256 = n / 65536 := by omega
  rw [k3']
  have k2' : n / 65536 * 256 + n / 256 % 256 = n / 256 := by omega
  rw [k2']
  have k1' : n / 256 * 256 + n % 256 = n := by omega
  exact k1'

/-- Serialise-then-parse is the identity on IPv4 addresses. -/
theorem parseIPv4_ipToString {n : Nat} (hn : n < ipMod) :
    parseIPv4 (ipToString n) = some n :=
  parseIPv4Chars_round hn

theorem parseEntries_save {st : Allocs} (h : ∀ p ∈ st, p.2 < ipMod) :
    parseEntries (saveAllocations st) = Except.ok st := by
  induction st with
  | nil => rfl
  | cons p rest ih =>
    obtain ⟨id, ip⟩ := p
    have ih' : parseEntries (saveAllocations rest) = Except.ok rest :=
      ih (fun q hq => h q (by simp [hq]))
    simp only [saveAllocations, List.map_cons] at ih' ⊢
    simp only [parseEntries, parseIPv4_ipToString (h (id, ip) (by simp)), ih']

/-! ## Claim C6: persistence round trip -/

/-- **C6.** Persistence round trip: saving any mapping of IPv4 addresses
and then constructing a new allocator against the same data directory — so
that the saved record is what gets loaded — reproduces the same parsed
subnet and gateway and an identical mapping: every stored address survives
serialisation to its textual form and re-parsing. -/
theorem persistence_round_trip
    (subnetStr gatewayStr : String) (pr : Nat × Nat) (g : Nat) (st : Allocs)
    (hs : parseCIDR subnetStr = some pr) (hg : parseIPv4 gatewayStr = some g)
    (hst : ∀ p ∈ st, p.2 < ipMod) :
    NewIPAM subnetStr gatewayStr (some (Except.ok (saveAllocations st))) =
      Except.ok (⟨pr.1, pr.2, g⟩, st) := by
  obtain ⟨n0, p0⟩ := pr
  simp only [NewIPAM, hs, hg, loadAllocations, parseEntries_save hst]

/-- Witness for C6 at a concrete mapping. -/
theorem persistence_round_trip_witness :
    NewIPAM "10.244.0.0/24" "10.244.0.1"
        (some (Except.ok (saveAllocations [("c1", 183762946)]))) =
      Except.ok (c24, [("c1", 183762946)]) :=
  persistence_round_trip "10.244.0.0/24" "10.244.0.1" (183762944, 24) 183762945
    [("c1", 183762946)] (by decide) (by decide) (by decide)

/-! ## Claim C7: constructor and load validation -/

theorem parseEntries_fails {entries : List (String × String)} {id s : String}
    (hmem : (id, s) ∈ entries) (hbad : parseIPv4 s = none) :
    ∃ e : NewError, parseEntries entries = Except.error e := by
  induction entries with
  | nil => cases hmem
  | cons p rest ih =>
    obtain ⟨id', s'⟩ := p
    rcases List.mem_cons.mp hmem with he | he
    · cases he
      refine ⟨NewError.invalidStoredIP, ?_⟩
      simp only [parseEntries, hbad]
    · obtain ⟨e, he'⟩ := ih he
      cases hp : parseIPv4 s' with
      | none =>
        refine ⟨NewError.invalidStoredIP, ?_⟩
        simp only [parseEntries, hp]
      | some ip =>
        refine ⟨e, ?_⟩
        simp only [parseEntries, hp, he']

/-- **C7.** With a well-formed subnet, a gateway string the IP parser
rejects makes `New` fail with the invalid-gateway error (before any
allocation logic runs); a record file that exists but cannot be parsed —
malformed JSON, or a stored address the IP parser rejects — fails the load
and hence `New`; and with no record file `New` succeeds with an empty
mapping. -/
theorem newIPAM_validation :
    (∀ (subnetStr gatewayStr : String) (file : StoreFile) (pr : Nat × Nat),
        parseCIDR subnetStr = some pr → parseIPv4 gatewayStr = none →
        NewIPAM subnetStr gatewayStr file = Except.error NewError.invalidGateway) ∧
      loadAllocations (some (Except.error ())) = Except.error NewError.corruptRecord ∧
      (∀ (entries : List (String × String)) (id s : String),
        (id, s) ∈ entries → parseIPv4 s = none →
        ∃ e : NewError,
          loadAllocations (some (Except.ok entries)) = Except.error e) ∧
      (∀ (subnetStr gatewayStr : String) (file : StoreFile) (pr : Nat × Nat)
          (g : Nat) (e : NewError),
        parseCIDR subnetStr = some pr → parseIPv4 gatewayStr = some g →
        loadAllocations file = Except.error e →
        NewIPAM subnetStr gatewayStr file = Except.error e) ∧
      ∀ (subnetStr gatewayStr : String) (pr : Nat × Nat) (g : Nat),
        parseCIDR subnetStr = some pr → parseIPv4 gatewayStr = some g →
        NewIPAM subnetStr gatewayStr none = Except.ok (⟨pr.1, pr.2, g⟩, []) := by
  refine ⟨?_, rfl, ?_, ?_, ?_⟩
  · intro subnetStr gatewayStr file pr hs hg
    obtain ⟨n0, p0⟩ := pr
    simp only [NewIPAM, hs, hg]
  · intro entries id s hmem hbad
    exact parseEntries_fails hmem hbad
  · intro subnetStr gatewayStr file pr g e hs hg hl
    obtain ⟨n0, p0⟩ := pr
    simp only [NewIPAM, hs, hg, hl]
  · intro subnetStr gatewayStr pr g hs hg
    obtain ⟨n0, p0⟩ := pr
    simp only [NewIPAM, hs, hg, loadAllocations]

/-- Witness for C7 at concrete inputs. -/
theorem newIPAM_validation_witness :
    NewIPAM "10.244.0.0/24" "not-an-ip" none =
        Except.error NewError.invalidGateway ∧
      (∃ e : NewError,
        loadAllocations (some (Except.ok [("c1", "garbage")])) = Except.error e) ∧
      NewIPAM "10.244.0.0/24" "10.244.0.1" (some (Except.error ())) =
        Except.error NewError.corruptRecord ∧
      NewIPAM "10.244.0.0/24" "10.244.0.1" none =
        Except.ok (c24, []) :=
  ⟨newIPAM_validation.1 "10.244.0.0/24" "not-an-ip" none (183762944, 24)
     (by decide) (by decide),
   newIPAM_validation.2.2.1 [("c1", "garbage")] "c1" "garbage" (by simp) (by decide),
   newIPAM_validation.2.2.2.1 "10.244.0.0/24" "10.244.0.1"
     (some (Except.error ())) (183762944, 24) 183762945 NewError.corruptRecord
     (by decide) (by decide) (by rfl),
   newIPAM_validation.2.2.2.2 "10.244.0.0/24" "10.244.0.1" (183762944, 24) 183762945
     (by decide) (by decide)⟩

end XvmCni
